import Mathlib

/-!
Verification of the sheet-notation parser and the duration allocator of
virtualpiano-rs (src/sheet.rs), as a shallow embedding in Lean 4.

Modelling choices:
* Rust `f64` values are modelled as exact rationals (`ℚ`): every arithmetic
  operation of the allocator is embedded as the corresponding exact rational
  operation, so floating-point rounding is abstracted away.
* `enigo::Key` is embedded as an inductive with the one constructor the
  parser uses, `Key::Unicode(char)`.
* `parse_sheet` takes the input already split into its list of lines
  (`input.lines()` in Rust); each line is its list of characters.
* The `defines` `HashMap<&str, &str>` is embedded as an association list to
  which `insert` prepends; lookup takes the first (that is, most recent)
  binding, matching the map's last-insert-wins behaviour.
-/

namespace VirtualPiano

/-- Key of the enigo crate; the parser only ever builds `Key::Unicode(c)`. -/
inductive Key where
  | Unicode : Char → Key
deriving DecidableEq

/-- `Token` from src/sheet.rs. -/
inductive Token where
  | ShortPause : Token
  | Pause : Token
  | LongPause : Token
  | Single : Key → Token
  | Many : List Key → Token
  | ManyFast : List Key → Token
deriving DecidableEq

/-- `TokenDurations` from src/sheet.rs, with `f64` modelled as `ℚ`. -/
structure TokenDurations where
  short_pause : ℚ
  pause : ℚ
  long_pause : ℚ
  single : ℚ
  many_fast : ℚ
deriving DecidableEq

/-- `Header` from src/sheet.rs; the `String` fields are lists of characters. -/
structure Header where
  title : Option (List Char)
  writer : Option (List Char)
  length : ℚ
deriving DecidableEq

/-- `Sheet` from src/sheet.rs. -/
structure Sheet where
  header : Header
  tokens : List Token
deriving DecidableEq

/-- `PauseDistribution` from src/sheet.rs, with `f64` modelled as `ℚ`. -/
structure PauseDistribution where
  short : ℚ
  standard : ℚ
  long : ℚ
  pause_ratio : ℚ
  many_fast_proportion : ℚ
deriving DecidableEq

/-- `calculate_token_durations` from src/sheet.rs (lines 45-81): validation
of the distribution followed by the proportional split of the per-token
budget `multiplier`. -/
def calculate_token_durations (multiplier : ℚ)
    (pause_distribution : PauseDistribution) : Except String TokenDurations :=
  if pause_distribution.pause_ratio ≤ 0 then
    .error "Note-pause ratio must be greater than zero."
  else
    let total_pause_distribution :=
      pause_distribution.short + pause_distribution.standard + pause_distribution.long
    if total_pause_distribution ≠ 1 then
      .error "Pause distribution percentages must add up to 1.0"
    else if pause_distribution.many_fast_proportion < 0 ∨
        pause_distribution.many_fast_proportion > 1 then
      .error "many_fast_proportion must be between 0.0 and 1.0"
    else
      let note_proportion :=
        pause_distribution.pause_ratio / (pause_distribution.pause_ratio + 1)
      let pause_proportion := 1 - note_proportion
      let remaining_proportion := 1 - pause_distribution.many_fast_proportion
      let single := note_proportion * remaining_proportion * multiplier
      let pause_time := pause_proportion * remaining_proportion
      let many_fast := pause_distribution.many_fast_proportion * multiplier
      .ok {
        short_pause := pause_time * pause_distribution.short
        pause := pause_time * pause_distribution.standard
        long_pause := pause_time * pause_distribution.long
        single := single
        many_fast := many_fast }

/-- The character loop of `parse_tokens` from src/sheet.rs (lines 83-129),
with the loop state (`in_many`, `in_many_fast`, `group`) and the output
vector passed explicitly. -/
def parse_tokens_go (in_many in_many_fast : Bool) (group : Option (List Key))
    (output : List Token) : List Char → Except String (List Token)
  | [] => .ok output
  | character :: rest =>
    if character = '[' then
      parse_tokens_go true in_many_fast (some []) output rest
    else if character = ']' then
      match group with
      | some keys =>
        if in_many_fast then
          parse_tokens_go false false none (output ++ [Token.ManyFast keys]) rest
        else if in_many then
          parse_tokens_go false false none (output ++ [Token.Many keys]) rest
        else
          .error "Attempted to close while not open"
      | none => .error "Attempted to close invalid key block"
    else if character = '|' then
      parse_tokens_go in_many in_many_fast group (output ++ [Token.Pause]) rest
    else if character = ' ' then
      if in_many then
        parse_tokens_go in_many true group output rest
      else
        parse_tokens_go in_many in_many_fast group (output ++ [Token.ShortPause]) rest
    else
      match group with
      | some keys =>
        parse_tokens_go in_many in_many_fast (some (keys ++ [Key.Unicode character]))
          output rest
      | none =>
        parse_tokens_go in_many in_many_fast group
          (output ++ [Token.Single (Key.Unicode character)]) rest

/-- `parse_tokens` from src/sheet.rs: the loop starts with both flags unset,
no pending group, and the caller's output vector. -/
def parse_tokens (output : List Token) (input : List Char) :
    Except String (List Token) :=
  parse_tokens_go false false none output input

/-- Whether a group-open marker is still unclosed after reading `l`, starting
from pending state `b`: `'['` opens, `']'` closes, every other character
leaves it. This is the claim's "preceding unclosed group-open marker" as a
syntactic condition on the prefix before a close marker. -/
def endsOpen (b : Bool) : List Char → Bool
  | [] => b
  | c :: rest => endsOpen (if c = '[' then true else if c = ']' then false else b) rest

/-- The mutable state `parse_sheet` threads through its line loop. -/
structure ParseState where
  tokens : List Token
  defines : List (List Char × List Char)
  last_line_empty : Bool
deriving DecidableEq

/-- Rust's `str::split_once`: split at the first occurrence of `sep`, which
belongs to neither side; `none` when `sep` does not occur. -/
def splitOnce (sep : Char) : List Char → Option (List Char × List Char)
  | [] => none
  | c :: rest =>
    if c = sep then some ([], rest)
    else
      match splitOnce sep rest with
      | none => none
      | some (a, b) => some (c :: a, b)

/-- Lookup in the defines map: the most recently inserted binding wins. -/
def getDefine (key : List Char) : List (List Char × List Char) → Option (List Char)
  | [] => none
  | (k, v) :: rest => if k = key then some v else getDefine key rest

/-- One iteration of the line loop of `parse_sheet` (src/sheet.rs lines
138-160): an empty line pushes `LongPause` unless the previous line was
empty; a line starting with the hash marker is a define; any other line is
scanned by `parse_tokens`. -/
def parse_sheet_line (st : ParseState) (line : List Char) :
    Except String ParseState :=
  if line = [] then
    .ok { st with
      tokens := if st.last_line_empty then st.tokens else st.tokens ++ [Token.LongPause]
      last_line_empty := true }
  else if line.head? = some '#' then
    match splitOnce ' ' line with
    | none => .error "Defines must be a name and value pair"
    | some (k, v) =>
      .ok { st with defines := (k, v) :: st.defines, last_line_empty := false }
  else
    match parse_tokens st.tokens line with
    | .error e => .error e
    | .ok out => .ok { st with tokens := out, last_line_empty := false }

/-- The line loop of `parse_sheet`, folded over the list of lines. -/
def runLines (st : ParseState) : List (List Char) → Except String ParseState
  | [] => .ok st
  | line :: rest =>
    match parse_sheet_line st line with
    | .error e => .error e
    | .ok st2 => runLines st2 rest

/-- The state `parse_sheet` starts from: no tokens, no defines, and
`last_line_empty = false`. -/
def initState : ParseState := ⟨[], [], false⟩

/-- The numeric value of a list of decimal digits, most significant first. -/
def digitsVal (l : List Char) : ℚ :=
  l.foldl (fun acc c => acc * 10 + ((c.toNat - 48 : ℕ) : ℚ)) 0

/-- Modelled from the Rust standard library: `f64::from_str` restricted to
finite decimal numerals (digits with at most one point; exponent forms and
inf/nan are outside the notation this program feeds it). At least one digit
is required; `"1."` and `".5"` are accepted, `"."` and `""` are not. The
value is the exact rational the numeral denotes. -/
def parseNumCore (l : List Char) : Option ℚ :=
  match splitOnce '.' l with
  | none => if l ≠ [] ∧ l.all Char.isDigit then some (digitsVal l) else none
  | some (intPart, fracPart) =>
    if (intPart ++ fracPart) ≠ [] ∧ intPart.all Char.isDigit ∧
        fracPart.all Char.isDigit then
      some (digitsVal intPart + digitsVal fracPart / (10 : ℚ) ^ fracPart.length)
    else none

/-- Modelled from the Rust standard library: `f64::from_str` with its
optional leading sign. -/
def parseNum : List Char → Option ℚ
  | '-' :: rest => (parseNumCore rest).map (fun q => -q)
  | '+' :: rest => parseNumCore rest
  | l => parseNumCore l

/-- The key of the required length define, as the source writes it
(`defines.get("#length")`, marker included). -/
def lengthKey : List Char := ['#', 'l', 'e', 'n', 'g', 't', 'h']

/-- The key of the optional title define. -/
def titleKey : List Char := ['#', 't', 'i', 't', 'l', 'e']

/-- The key of the optional writer define. -/
def writerKey : List Char := ['#', 'w', 'r', 'i', 't', 'e', 'r']

/-- `parse_sheet` from src/sheet.rs (lines 131-193): run the line loop, then
resolve the length define as `minutes:seconds` and build the header. -/
def parse_sheet (lines : List (List Char)) : Except String Sheet :=
  match runLines initState lines with
  | .error e => .error e
  | .ok st =>
    match getDefine lengthKey st.defines with
    | none => .error "Sheet length must be defined"
    | some lengthVal =>
      match splitOnce ':' lengthVal with
      | none => .error "Invalid sheet length format"
      | some (mins, secs) =>
        match parseNum mins with
        | none => .error "Invalid sheet length minutes"
        | some m =>
          match parseNum secs with
          | none => .error "Invalid sheet length seconds"
          | some s =>
            .ok {
              header := {
                title := getDefine titleKey st.defines
                writer := getDefine writerKey st.defines
                length := m * 60 + s }
              tokens := st.tokens }

deriving instance DecidableEq for Except

/-- C4: `calculate_token_durations` succeeds exactly when the distribution is
valid — positive `pause_ratio`, proportions summing exactly to 1, and
`many_fast_proportion` inside `[0, 1]` — and the three validation checks are
performed in that order (an earlier failure pre-empts the later checks),
each check failing with its own distinct error. -/
theorem c4_validation_exact_and_ordered (m : ℚ) (d : PauseDistribution) :
    ((∃ td, calculate_token_durations m d = .ok td) ↔
      (0 < d.pause_ratio ∧ d.short + d.standard + d.long = 1 ∧
        0 ≤ d.many_fast_proportion ∧ d.many_fast_proportion ≤ 1)) ∧
    (d.pause_ratio ≤ 0 →
      calculate_token_durations m d =
        .error "Note-pause ratio must be greater than zero.") ∧
    (0 < d.pause_ratio → d.short + d.standard + d.long ≠ 1 →
      calculate_token_durations m d =
        .error "Pause distribution percentages must add up to 1.0") ∧
    (0 < d.pause_ratio → d.short + d.standard + d.long = 1 →
      (d.many_fast_proportion < 0 ∨ 1 < d.many_fast_proportion) →
      calculate_token_durations m d =
        .error "many_fast_proportion must be between 0.0 and 1.0") := by
  dsimp only [calculate_token_durations]
  split_ifs with h1 h2 h3
  · refine ⟨⟨fun h => ?_, fun h => ?_⟩, fun _ => rfl, fun hr _ => ?_, fun hr _ _ => ?_⟩
    · obtain ⟨td, htd⟩ := h; simp at htd
    · exact absurd h1 (not_le.mpr h.1)
    · exact absurd h1 (not_le.mpr hr)
    · exact absurd h1 (not_le.mpr hr)
  · refine ⟨⟨fun h => ?_, fun h => ?_⟩, fun hc => ?_, fun _ _ => rfl, fun _ hs _ => ?_⟩
    · obtain ⟨td, htd⟩ := h; simp at htd
    · exact absurd h.2.1 h2
    · exact absurd hc (not_le.mpr (lt_of_not_le h1))
    · exact absurd hs h2
  · refine ⟨⟨fun h => ?_, fun h => ?_⟩, fun hc => ?_, fun _ hs => ?_, fun _ _ _ => rfl⟩
    · obtain ⟨td, htd⟩ := h; simp at htd
    · rcases h3 with h3 | h3
      · exact absurd h3 (not_lt.mpr h.2.2.1)
      · exact absurd h3 (not_lt.mpr h.2.2.2)
    · exact absurd hc (not_le.mpr (lt_of_not_le h1))
    · exact absurd hs h2
  · push_neg at h3
    refine ⟨⟨fun _ => ?_, fun _ => ⟨_, rfl⟩⟩, fun hc => ?_, fun _ hs => ?_,
      fun _ _ hf => ?_⟩
    · exact ⟨lt_of_not_le h1, not_not.mp h2, h3.1, h3.2⟩
    · exact absurd hc (not_le.mpr (lt_of_not_le h1))
    · exact absurd hs h2
    · rcases hf with hf | hf
      · exact absurd hf (not_lt.mpr h3.1)
      · exact absurd hf (not_lt.mpr h3.2)

/-- C4 witness: at `pause_ratio = 0` the allocator fails with the first
validation error. -/
theorem c4_validation_witness :
    ((0 : ℚ) ≤ 0) ∧
    calculate_token_durations 1 ⟨1/5, 3/10, 1/2, 0, 1/2⟩ =
      .error "Note-pause ratio must be greater than zero." :=
  ⟨le_refl 0,
    (c4_validation_exact_and_ordered 1 ⟨1/5, 3/10, 1/2, 0, 1/2⟩).2.1 (le_refl 0)⟩

/-- C1 counterexample: the distribution `⟨-1, 1, 1, 20, 3/20⟩` passes the
validation (its proportions sum to 1, the ratio is positive and the fast
proportion is in range), yet with multiplier `-1` the returned `single`
duration is negative and the three pause durations sum to
`(1 - many_fast_proportion) * (1 - note_share)` without the claimed extra
factor `multiplier`. -/
theorem c1_counterexample :
    calculate_token_durations (-1) ⟨-1, 1, 1, 20, 3/20⟩ =
      .ok ⟨-(17/420), 17/420, 17/420, -(17/21), -(3/20)⟩ ∧
    ¬ (0 ≤ (-(17/420) : ℚ)) ∧
    ((-(17/420) : ℚ) + 17/420 + 17/420 ≠
      (1 - 3/20) * (1 - 20 / (20 + 1)) * (-1)) := by
  refine ⟨?_, by norm_num, by norm_num⟩
  dsimp only [calculate_token_durations]
  norm_num

/-- C1 as amended: when the three pause proportions are themselves
non-negative and the multiplier is non-negative, every field of a
successfully returned `TokenDurations` is non-negative; and the three pause
durations always sum to
`(1 - many_fast_proportion) * (1 - pause_ratio / (pause_ratio + 1))` —
the per-token multiplier does not enter the pause durations. -/
theorem c1_amended_nonneg_and_pause_sum (m : ℚ) (d : PauseDistribution)
    (td : TokenDurations) (hm : 0 ≤ m) (hs : 0 ≤ d.short) (hst : 0 ≤ d.standard)
    (hl : 0 ≤ d.long) (h : calculate_token_durations m d = .ok td) :
    (0 ≤ td.short_pause ∧ 0 ≤ td.pause ∧ 0 ≤ td.long_pause ∧
      0 ≤ td.single ∧ 0 ≤ td.many_fast) ∧
    td.short_pause + td.pause + td.long_pause =
      (1 - d.many_fast_proportion) * (1 - d.pause_ratio / (d.pause_ratio + 1)) := by
  dsimp only [calculate_token_durations] at h
  split_ifs at h with h1 h2 h3
  simp only [Except.ok.injEq] at h
  subst h
  push_neg at h3
  have hr : 0 < d.pause_ratio := lt_of_not_le h1
  have hsum : d.short + d.standard + d.long = 1 := not_not.mp h2
  have hnote0 : 0 ≤ d.pause_ratio / (d.pause_ratio + 1) :=
    div_nonneg hr.le (by linarith)
  have hnote1 : d.pause_ratio / (d.pause_ratio + 1) ≤ 1 :=
    (div_le_one (by linarith)).mpr (by linarith)
  have hpp : 0 ≤ 1 - d.pause_ratio / (d.pause_ratio + 1) := by linarith
  have hrem : 0 ≤ 1 - d.many_fast_proportion := by linarith [h3.2]
  have hpt : 0 ≤ (1 - d.pause_ratio / (d.pause_ratio + 1)) *
      (1 - d.many_fast_proportion) := mul_nonneg hpp hrem
  refine ⟨⟨mul_nonneg hpt hs, mul_nonneg hpt hst, mul_nonneg hpt hl,
    mul_nonneg (mul_nonneg hnote0 hrem) hm, mul_nonneg h3.1 hm⟩, ?_⟩
  dsimp only
  linear_combination
    (1 - d.pause_ratio / (d.pause_ratio + 1)) * (1 - d.many_fast_proportion) * hsum

/-- C1 amended witness: the Scenario E configuration at multiplier 2. -/
theorem c1_amended_witness :
    calculate_token_durations 2 ⟨1/5, 3/10, 1/2, 20, 3/20⟩ =
      .ok ⟨17/2100, 17/1400, 17/840, 34/21, 3/10⟩ ∧
    ((0 ≤ (17/2100 : ℚ) ∧ 0 ≤ (17/1400 : ℚ) ∧ 0 ≤ (17/840 : ℚ) ∧
      0 ≤ (34/21 : ℚ) ∧ 0 ≤ (3/10 : ℚ)) ∧
     (17/2100 : ℚ) + 17/1400 + 17/840 = (1 - 3/20) * (1 - 20 / (20 + 1))) := by
  have h : calculate_token_durations 2 ⟨1/5, 3/10, 1/2, 20, 3/20⟩ =
      .ok ⟨17/2100, 17/1400, 17/840, 34/21, 3/10⟩ := by
    dsimp only [calculate_token_durations]
    norm_num
  exact ⟨h, c1_amended_nonneg_and_pause_sum 2 ⟨1/5, 3/10, 1/2, 20, 3/20⟩
    ⟨17/2100, 17/1400, 17/840, 34/21, 3/10⟩ (by norm_num) (by norm_num)
    (by norm_num) (by norm_num) h⟩

/-- C7: the standalone pause marker emits a `Pause` token immediately and
leaves every piece of the scanner state — both group flags and the pending
key sequence — untouched, in any state; on `"A|B"` the parse is
`[Single 'A', Pause, Single 'B']`. -/
theorem c7_pause_marker_unconditional :
    (∀ (in_many in_many_fast : Bool) (group : Option (List Key))
        (output : List Token) (rest : List Char),
      parse_tokens_go in_many in_many_fast group output ('|' :: rest) =
        parse_tokens_go in_many in_many_fast group (output ++ [Token.Pause]) rest) ∧
    parse_tokens [] ("A|B".toList) =
      .ok [Token.Single (Key.Unicode 'A'), Token.Pause,
        Token.Single (Key.Unicode 'B')] := by
  refine ⟨fun im imf g out rest => ?_, by decide⟩
  simp [parse_tokens_go]

/-- C8: a space inside a group only sets the fast-group flag — no token is
emitted, nothing is appended, the group stays open — while a space outside
any group emits a `ShortPause`; hence `"[A B]"` parses to an `Arpeggio`
(`ManyFast`) and `"[AB]"` to a `Chord` (`Many`). -/
theorem c8_space_fast_group_or_short_pause :
    (∀ (in_many_fast : Bool) (group : Option (List Key)) (output : List Token)
        (rest : List Char),
      parse_tokens_go true in_many_fast group output (' ' :: rest) =
        parse_tokens_go true true group output rest) ∧
    (∀ (in_many_fast : Bool) (group : Option (List Key)) (output : List Token)
        (rest : List Char),
      parse_tokens_go false in_many_fast group output (' ' :: rest) =
        parse_tokens_go false in_many_fast group (output ++ [Token.ShortPause]) rest) ∧
    parse_tokens [] ("[A B]".toList) =
      .ok [Token.ManyFast [Key.Unicode 'A', Key.Unicode 'B']] ∧
    parse_tokens [] ("[AB]".toList) =
      .ok [Token.Many [Key.Unicode 'A', Key.Unicode 'B']] := by
  refine ⟨fun imf g out rest => ?_, fun imf g out rest => ?_, by decide, by decide⟩
  · simp [parse_tokens_go]
  · simp [parse_tokens_go]

/-- Scanning a prefix that leaves no group pending — the scanner's group
state matching `endsOpen` along the way, with `in_many = group.isSome` — a
following close marker fails with the error of the `group = None` branch of
`parse_tokens` (an earlier stray close inside the prefix fails with the same
error even sooner). -/
theorem parse_go_close_no_pending :
    ∀ (pre : List Char) (imf : Bool) (g : Option (List Key)) (output : List Token)
      (rest : List Char),
      endsOpen g.isSome pre = false →
      parse_tokens_go g.isSome imf g output (pre ++ ']' :: rest) =
        .error "Attempted to close invalid key block" := by
  intro pre
  induction pre with
  | nil =>
    intro imf g output rest h
    have hg : g = none := Option.not_isSome_iff_eq_none.mp (by simpa [endsOpen] using h)
    subst hg
    simp [parse_tokens_go]
  | cons c pre ih =>
    intro imf g output rest h
    by_cases h1 : c = '['
    · subst h1
      have h' : endsOpen (some ([] : List Key)).isSome pre = false := by
        simpa [endsOpen] using h
      simpa [parse_tokens_go] using ih imf (some []) output rest h'
    · by_cases h2 : c = ']'
      · subst h2
        cases g with
        | none => simp [parse_tokens_go]
        | some ks =>
          have h' : endsOpen (none : Option (List Key)).isSome pre = false := by
            simpa [endsOpen] using h
          cases imf with
          | false =>
            simpa [parse_tokens_go] using
              ih false none (output ++ [Token.Many ks]) rest h'
          | true =>
            simpa [parse_tokens_go] using
              ih false none (output ++ [Token.ManyFast ks]) rest h'
      · by_cases h3 : c = '|'
        · subst h3
          have h' : endsOpen g.isSome pre = false := by simpa [endsOpen] using h
          simpa [parse_tokens_go] using ih imf g (output ++ [Token.Pause]) rest h'
        · by_cases h4 : c = ' '
          · subst h4
            have h' : endsOpen g.isSome pre = false := by simpa [endsOpen] using h
            cases g with
            | none =>
              simpa [parse_tokens_go] using
                ih imf none (output ++ [Token.ShortPause]) rest h'
            | some ks =>
              simpa [parse_tokens_go] using ih true (some ks) output rest h'
          · have h' : endsOpen g.isSome pre = false := by
              simpa [endsOpen, h1, h2] using h
            cases g with
            | none =>
              simpa [parse_tokens_go, h1, h2, h3, h4] using
                ih imf none (output ++ [Token.Single (Key.Unicode c)]) rest h'
            | some ks =>
              simpa [parse_tokens_go, h1, h2, h3, h4] using
                ih imf (some (ks ++ [Key.Unicode c])) output rest h'

/-- C6: a close marker on a line with no preceding unclosed open marker —
every earlier `'['` on the line, if any, already matched by a `']'`, as
captured by `endsOpen` — makes `parse_tokens` fail with the "Attempted to
close invalid key block" error (the spec's `GroupCloseWithoutOpen`: a close
with no pending group), and `parse_sheet` on an input containing such a
content line returns that very error and no `Sheet`. -/
theorem c6_close_without_open (pre rest : List Char)
    (hopen : endsOpen false pre = false) (hhash : pre.head? ≠ some '#') :
    (∀ output, parse_tokens output (pre ++ ']' :: rest) =
        .error "Attempted to close invalid key block") ∧
    parse_sheet [("#length 1:30".toList), pre ++ ']' :: rest] =
      .error "Attempted to close invalid key block" := by
  have hgo : ∀ output, parse_tokens output (pre ++ ']' :: rest) =
      .error "Attempted to close invalid key block" :=
    fun output => parse_go_close_no_pending pre false none output rest hopen
  refine ⟨hgo, ?_⟩
  have hne : pre ++ ']' :: rest ≠ [] := by
    cases pre <;> simp
  have hhead : (pre ++ ']' :: rest).head? ≠ some '#' := by
    cases pre with
    | nil => simp
    | cons a l => simpa using hhash
  have hline1 : parse_sheet_line initState ("#length 1:30".toList) =
      .ok ⟨[], [(("#length".toList), ("1:30".toList))], false⟩ := by decide
  have hline2 : parse_sheet_line ⟨[], [(("#length".toList), ("1:30".toList))], false⟩
      (pre ++ ']' :: rest) = .error "Attempted to close invalid key block" := by
    simp only [parse_sheet_line, hne, hhead, if_false, reduceIte]
    simp [hgo]
  have hrun : runLines initState [("#length 1:30".toList), pre ++ ']' :: rest] =
      .error "Attempted to close invalid key block" := by
    simp only [runLines, hline1, hline2]
  simp only [parse_sheet, hrun]

/-- C6 witness: the line `"[A]]"` after a length define — the stray close
follows a group that was already opened and closed. -/
theorem c6_close_without_open_witness :
    (endsOpen false ['[', 'A', ']'] = false) ∧
    ((['[', 'A', ']'] : List Char).head? ≠ some '#') ∧
    parse_sheet [("#length 1:30".toList), ['[', 'A', ']'] ++ ']' :: []] =
      .error "Attempted to close invalid key block" :=
  ⟨by decide, by decide,
    (c6_close_without_open ['[', 'A', ']'] [] (by decide) (by decide)).2⟩

/-- C3 counterexample: the define `"#length 0:-5"` is accepted — Rust's
number parsing takes the sign — so a sheet can parse successfully with a
negative header length, against the claimed non-negativity. -/
theorem c3_counterexample :
    parse_sheet [("#length 0:-5".toList), ("A".toList)] =
      .ok ⟨⟨none, none, -5⟩, [Token.Single (Key.Unicode 'A')]⟩ ∧
    ((-5 : ℚ) < 0) := by
  refine ⟨?_, by norm_num⟩
  simp [parse_sheet, runLines, parse_sheet_line, parse_tokens, parse_tokens_go,
    splitOnce, getDefine, parseNum, parseNumCore, digitsVal, lengthKey, titleKey,
    writerKey, initState, String.toList]
  try norm_num

/-- C3 as amended: the length define is required and its value must be of
the form `minutes:seconds`; a missing define, a missing colon, an unparsable
minutes field and an unparsable seconds field are four distinct fatal
errors, and on success the header length is `minutes * 60 + seconds` (which
may be negative, since either field may carry a sign). -/
theorem c3_amended_length_define (lines : List (List Char)) (st : ParseState)
    (h : runLines initState lines = .ok st) :
    (getDefine lengthKey st.defines = none →
      parse_sheet lines = .error "Sheet length must be defined") ∧
    (∀ v, getDefine lengthKey st.defines = some v → splitOnce ':' v = none →
      parse_sheet lines = .error "Invalid sheet length format") ∧
    (∀ v a b, getDefine lengthKey st.defines = some v →
      splitOnce ':' v = some (a, b) → parseNum a = none →
      parse_sheet lines = .error "Invalid sheet length minutes") ∧
    (∀ v a b x, getDefine lengthKey st.defines = some v →
      splitOnce ':' v = some (a, b) → parseNum a = some x → parseNum b = none →
      parse_sheet lines = .error "Invalid sheet length seconds") ∧
    (∀ v a b x y, getDefine lengthKey st.defines = some v →
      splitOnce ':' v = some (a, b) → parseNum a = some x → parseNum b = some y →
      parse_sheet lines = .ok ⟨⟨getDefine titleKey st.defines,
        getDefine writerKey st.defines, x * 60 + y⟩, st.tokens⟩) := by
  refine ⟨fun h0 => ?_, fun v hv h0 => ?_, fun v a b hv hab h0 => ?_,
    fun v a b x hv hab hx h0 => ?_, fun v a b x y hv hab hx hy => ?_⟩
  · simp only [parse_sheet, h, h0]
  · simp only [parse_sheet, h, hv, h0]
  · simp only [parse_sheet, h, hv, hab, h0]
  · simp only [parse_sheet, h, hv, hab, hx, h0]
  · simp only [parse_sheet, h, hv, hab, hx, hy]

/-- C3 witness: Scenario D, the define line `"#length 1:30"` giving header
length 90 seconds. -/
theorem c3_amended_length_define_witness :
    runLines initState [("#length 1:30".toList)] =
      .ok ⟨[], [(("#length".toList), ("1:30".toList))], false⟩ ∧
    parse_sheet [("#length 1:30".toList)] = .ok ⟨⟨none, none, 90⟩, []⟩ := by
  have h : runLines initState [("#length 1:30".toList)] =
      .ok ⟨[], [(("#length".toList), ("1:30".toList))], false⟩ := by decide
  refine ⟨h, ?_⟩
  have h5 := (c3_amended_length_define _ _ h).2.2.2.2 ("1:30".toList) ("1".toList)
    ("30".toList) 1 30 (by decide) (by decide) ?_ ?_
  · rw [h5]
    simp [getDefine, titleKey, writerKey]
    try norm_num
  · simp [parseNum, parseNumCore, splitOnce, digitsVal, String.toList]
    try norm_num
  · simp [parseNum, parseNumCore, splitOnce, digitsVal, String.toList]
    try norm_num

/-- C2 counterexample: the input `"[]"` (with a length define) parses
successfully and its token sequence holds a `Many` (`Chord`) token with an
empty key sequence — the empty group is not rejected. -/
theorem c2_counterexample :
    parse_sheet [("#length 0:1".toList), ("[]".toList)] =
      .ok ⟨⟨none, none, 1⟩, [Token.Many []]⟩ := by
  simp [parse_sheet, runLines, parse_sheet_line, parse_tokens, parse_tokens_go,
    splitOnce, getDefine, parseNum, parseNumCore, digitsVal, lengthKey, titleKey,
    writerKey, initState, String.toList]

/-- C2 as amended: `Many` (`Chord`) and `ManyFast` (`Arpeggio`) key sequences
can be empty — an empty group `"[]"` is accepted and emits `Many []`, and
`"[ ]"` is accepted and emits `ManyFast []`, for any surrounding output. -/
theorem c2_amended_empty_groups_accepted :
    (∀ output, parse_tokens output ("[]".toList) = .ok (output ++ [Token.Many []])) ∧
    (∀ output, parse_tokens output ("[ ]".toList) =
      .ok (output ++ [Token.ManyFast []])) := by
  refine ⟨fun output => ?_, fun output => ?_⟩
  · simp [parse_tokens, parse_tokens_go, String.toList]
  · simp [parse_tokens, parse_tokens_go, String.toList]

/-- A blank line seen while the blank-run flag is already set leaves the
whole parse state unchanged. -/
theorem parse_sheet_line_blank_skip (tk : List Token)
    (df : List (List Char × List Char)) :
    parse_sheet_line ⟨tk, df, true⟩ [] = .ok ⟨tk, df, true⟩ := by
  simp [parse_sheet_line]

/-- Any number of further blank lines after the first one of a run are
skipped without any effect on the state. -/
theorem runLines_blank_skip (tk : List Token) (df : List (List Char × List Char)) :
    ∀ (k : ℕ) (rest : List (List Char)),
      runLines ⟨tk, df, true⟩ (List.replicate k [] ++ rest) =
        runLines ⟨tk, df, true⟩ rest := by
  intro k
  induction k with
  | zero => intro rest; rfl
  | succ n ih =>
    intro rest
    simp only [List.replicate_succ, List.cons_append, runLines,
      parse_sheet_line_blank_skip]
    exact ih rest

/-- Every successfully processed non-blank line resets the blank-run flag. -/
theorem parse_sheet_line_nonblank_resets (st st1 : ParseState) (line : List Char)
    (h : line ≠ []) (h2 : parse_sheet_line st line = .ok st1) :
    st1.last_line_empty = false := by
  dsimp only [parse_sheet_line] at h2
  rw [if_neg h] at h2
  by_cases hh : line.head? = some '#'
  · rw [if_pos hh] at h2
    split at h2
    · exact absurd h2 (by simp)
    · simp only [Except.ok.injEq] at h2
      subst h2
      rfl
  · rw [if_neg hh] at h2
    split at h2
    · exact absurd h2 (by simp)
    · simp only [Except.ok.injEq] at h2
      subst h2
      rfl

/-- A run of `k ≥ 1` blank lines entered with the blank-run flag clear pushes
exactly one `LongPause`, independently of `k`. -/
theorem runLines_blank_run (st : ParseState) (hst : st.last_line_empty = false)
    (k : ℕ) (hk : 1 ≤ k) (rest : List (List Char)) :
    runLines st (List.replicate k [] ++ rest) =
      runLines ⟨st.tokens ++ [Token.LongPause], st.defines, true⟩ rest := by
  obtain ⟨n, rfl⟩ : ∃ n, k = n + 1 := ⟨k - 1, (Nat.succ_pred_eq_of_pos hk).symm⟩
  have hline : parse_sheet_line st [] =
      .ok ⟨st.tokens ++ [Token.LongPause], st.defines, true⟩ := by
    simp [parse_sheet_line, hst]
  simp only [List.replicate_succ, List.cons_append, runLines, hline]
  exact runLines_blank_skip _ _ n rest

/-- C5: after a non-blank line, a run of `k ≥ 1` blank lines followed by
more input contributes exactly one `LongPause` token, independent of `k`;
concretely, three blank lines between `"A"` and `"B"` parse the same as one,
and produce the single token sequence `[Single 'A', LongPause, Single 'B']`. -/
theorem c5_blank_run_one_longpause (st st1 : ParseState) (line1 : List Char)
    (k : ℕ) (rest : List (List Char)) (h1 : line1 ≠ [])
    (h2 : parse_sheet_line st line1 = .ok st1) (hk : 1 ≤ k)
    (hrest : rest.head? ≠ some []) :
    runLines st (line1 :: (List.replicate k [] ++ rest)) =
      runLines ⟨st1.tokens ++ [Token.LongPause], st1.defines, true⟩ rest ∧
    parse_sheet [("#length 1:30".toList), ("A".toList), [], [], [], ("B".toList)] =
      parse_sheet [("#length 1:30".toList), ("A".toList), [], ("B".toList)] ∧
    parse_sheet [("#length 1:30".toList), ("A".toList), [], [], [], ("B".toList)] =
      .ok ⟨⟨none, none, 90⟩, [Token.Single (Key.Unicode 'A'), Token.LongPause,
        Token.Single (Key.Unicode 'B')]⟩ := by
  have hfalse : st1.last_line_empty = false :=
    parse_sheet_line_nonblank_resets st st1 line1 h1 h2
  refine ⟨?_, ?_, ?_⟩
  · simp only [runLines, h2]
    exact runLines_blank_run st1 hfalse k hk rest
  · simp [parse_sheet, runLines, parse_sheet_line, parse_tokens, parse_tokens_go,
      splitOnce, getDefine, parseNum, parseNumCore, digitsVal, lengthKey, titleKey,
      writerKey, initState, String.toList]
    try norm_num
  · simp [parse_sheet, runLines, parse_sheet_line, parse_tokens, parse_tokens_go,
      splitOnce, getDefine, parseNum, parseNumCore, digitsVal, lengthKey, titleKey,
      writerKey, initState, String.toList]
    try norm_num

/-- C5 witness: the line `"A"`, then three blank lines, then `"B"`. -/
theorem c5_blank_run_one_longpause_witness :
    runLines initState (['A'] :: (List.replicate 3 [] ++ [['B']])) =
      runLines ⟨[Token.Single (Key.Unicode 'A'), Token.LongPause], [], true⟩
        [['B']] :=
  (c5_blank_run_one_longpause initState ⟨[Token.Single (Key.Unicode 'A')], [], false⟩
    ['A'] 3 [['B']] (by decide) (by decide) (by norm_num) (by decide)).1

/-- Scanning inside an open group, as long as no close marker appears the
scan cannot fail, the pending keys contribute nothing to the output, and
only standalone-pause markers emit tokens. -/
theorem parse_go_open_group_run :
    ∀ (mid : List Char) (imf : Bool) (keys : List Key) (output : List Token),
      ']' ∉ mid →
      parse_tokens_go true imf (some keys) output mid =
        .ok (output ++ (mid.filter (fun c => c = '|')).map (fun _ => Token.Pause)) := by
  intro mid
  induction mid with
  | nil =>
    intro imf keys output _
    simp [parse_tokens_go]
  | cons c mid ih =>
    intro imf keys output h
    have hc : c ≠ ']' := fun e => h (e ▸ List.mem_cons_self c mid)
    have hmid : ']' ∉ mid := fun m => h (List.mem_cons_of_mem c m)
    by_cases h1 : c = '['
    · subst h1
      simp [parse_tokens_go, ih imf [] output hmid, List.filter_cons]
    · by_cases h2 : c = '|'
      · subst h2
        simp [parse_tokens_go, ih imf keys (output ++ [Token.Pause]) hmid,
          List.filter_cons]
      · by_cases h3 : c = ' '
        · subst h3
          simp [parse_tokens_go, ih true keys output hmid, List.filter_cons]
        · simp [parse_tokens_go, hc, h1, h2, h3,
            ih imf (keys ++ [Key.Unicode c]) output hmid, List.filter_cons]

/-- C9: a content line on which a group is opened and never closed parses
without error; the pending key sequence is silently discarded — the output
does not depend on it and it emits no token (only `Pause` markers inside the
group emit) — and the group does not carry over to the next line, since each
line is scanned from a fresh state: `"[AB"` followed by `"C"` yields only
`Single 'C'`. -/
theorem c9_unclosed_group_discarded (mid : List Char) (imf : Bool)
    (keys keys2 : List Key) (output : List Token) (h : ']' ∉ mid) :
    parse_tokens_go true imf (some keys) output mid =
      .ok (output ++ (mid.filter (fun c => c = '|')).map (fun _ => Token.Pause)) ∧
    parse_tokens_go true imf (some keys) output mid =
      parse_tokens_go true imf (some keys2) output mid ∧
    parse_sheet [("#length 1:30".toList), ("[AB".toList), ("C".toList)] =
      .ok ⟨⟨none, none, 90⟩, [Token.Single (Key.Unicode 'C')]⟩ := by
  refine ⟨parse_go_open_group_run mid imf keys output h, ?_, ?_⟩
  · rw [parse_go_open_group_run mid imf keys output h,
      parse_go_open_group_run mid imf keys2 output h]
  · simp [parse_sheet, runLines, parse_sheet_line, parse_tokens, parse_tokens_go,
      splitOnce, getDefine, parseNum, parseNumCore, digitsVal, lengthKey, titleKey,
      writerKey, initState, String.toList]
    try norm_num

/-- C9 witness: the group `"[AB"` left open at the end of a line, with a
non-empty pending key sequence. -/
theorem c9_unclosed_group_discarded_witness :
    parse_tokens_go true false (some [Key.Unicode 'X']) [] ['A', 'B'] =
      .ok ([] ++ ((['A', 'B'].filter (fun c => c = '|')).map
        (fun _ => Token.Pause))) :=
  (c9_unclosed_group_discarded ['A', 'B'] false [Key.Unicode 'X'] [] []
    (by decide)).1

/-- From outside any group, a run of `n` spaces emits `n` `ShortPause`
tokens and nothing else. -/
theorem parse_go_spaces :
    ∀ (n : ℕ) (imf : Bool) (output : List Token),
      parse_tokens_go false imf none output (List.replicate n ' ') =
        .ok (output ++ List.replicate n Token.ShortPause) := by
  intro n
  induction n with
  | zero =>
    intro imf output
    simp [parse_tokens_go]
  | succ m ih =>
    intro imf output
    simpa [parse_tokens_go, List.replicate_succ] using
      ih imf (output ++ [Token.ShortPause])

/-- C10: only a line of length zero is treated as blank — the blank branch
of the line loop fires exactly on the empty line — while a line of `n ≥ 1`
spaces is an ordinary content line: it emits one `ShortPause` per space and
no `LongPause`, and it clears the blank-run flag. -/
theorem c10_space_line_is_content (st : ParseState) (n : ℕ) (hn : 1 ≤ n) :
    parse_sheet_line st (List.replicate n ' ') =
      .ok ⟨st.tokens ++ List.replicate n Token.ShortPause, st.defines, false⟩ ∧
    (∀ st2 : ParseState, parse_sheet_line st2 [] =
      .ok ⟨(if st2.last_line_empty then st2.tokens
        else st2.tokens ++ [Token.LongPause]), st2.defines, true⟩) := by
  constructor
  · obtain ⟨m, rfl⟩ : ∃ m, n = m + 1 := ⟨n - 1, (Nat.succ_pred_eq_of_pos hn).symm⟩
    have hne : List.replicate (m + 1) ' ' ≠ [] := by simp [List.replicate_succ]
    have hhd : (List.replicate (m + 1) ' ').head? ≠ some '#' := by
      simp [List.replicate_succ]
    have hpt : parse_tokens st.tokens (List.replicate (m + 1) ' ') =
        .ok (st.tokens ++ List.replicate (m + 1) Token.ShortPause) :=
      parse_go_spaces (m + 1) false st.tokens
    simp [parse_sheet_line, hne, hhd, hpt]
  · intro st2
    simp [parse_sheet_line]

/-- C10 witness: a line of two spaces. -/
theorem c10_space_line_is_content_witness :
    (1 ≤ 2) ∧ parse_sheet_line initState (List.replicate 2 ' ') =
      .ok ⟨[] ++ List.replicate 2 Token.ShortPause, [], false⟩ :=
  ⟨by norm_num, (c10_space_line_is_content initState 2 (by norm_num)).1⟩

end VirtualPiano
